import Mathlib

/-!
Verification development for the "concessionaria" car-record CRUD service
(model `Carro`, serializer `CarroSerializer` declaring every model field, and
viewset `CarroViewSet`, a stock `ModelViewSet`).

The data model is translated from `models.py`:
  marca     CharField(max_length=100)
  modelo    CharField(max_length=100)
  ano       IntegerField()
  preco     DecimalField(max_digits=10, decimal_places=2)
  foto      ImageField(blank=True, null=True)
  criado_em DateTimeField(auto_now_add=True)
and the serializer / viewset semantics follow the framework contract the
spec states for them: the serializer validates presence and basic type of
the required fields, treats `id` and `criado_em` as system-assigned
(read-only, ignored on input), and the viewset wires the standard
list / create / retrieve / update / delete operations to a keyed store.

Decimal amounts are embedded exactly as an integer number of cents;
timestamps as a natural-number clock carried by the store.
-/

/-- A JSON-ish input value as received by the serializer: a string, an
integer literal, a decimal literal `mantissa * 10 ^ (-places)`, or null. -/
inductive JValue where
  | jstr (s : String)
  | jint (n : Int)
  | jnum (mantissa : Int) (places : Nat)
  | jnull
  deriving DecidableEq

/-- The body of a write request: each serializer field key is present with a
value, or absent. `id` and `criado_em` keys may be supplied by the client
but are system-assigned. -/
structure CarroInput where
  id : Option JValue := none
  marca : Option JValue := none
  modelo : Option JValue := none
  ano : Option JValue := none
  preco : Option JValue := none
  foto : Option JValue := none
  criado_em : Option JValue := none
  deriving DecidableEq

/-- A stored car record, from the `Carro` model: `preco` is held exactly as
an integer number of cents (two fixed decimal places), `criado_em` is the
clock value at insertion. -/
structure Carro where
  id : Nat
  marca : String
  modelo : String
  ano : Int
  preco : Int
  foto : Option String
  criado_em : Nat
  deriving DecidableEq

/-- The relational table of car records plus the id sequence and a clock
supplying `auto_now_add` timestamps. -/
structure Store where
  rows : List Carro
  nextId : Nat
  now : Nat
  deriving DecidableEq

/-- Numeric value of a digit character. -/
def digitVal (c : Char) : Nat := c.toNat - 48

/-- Reads a run of decimal digit characters into an accumulator; fails on
any non-digit. -/
def readDigits : List Char → Nat → Option Nat
  | [], acc => some acc
  | c :: cs, acc =>
    if c.isDigit then readDigits cs (acc * 10 + digitVal c) else none

/-- Splits a character list at the first dot, returning the part before it
and, when a dot occurs, the part after it. -/
def splitAtDot : List Char → List Char × Option (List Char)
  | [] => ([], none)
  | c :: cs =>
    if c = '.' then ([], some cs)
    else
      let r := splitAtDot cs
      (c :: r.1, r.2)

/-- Parses a decimal-formatted string (optional leading minus, digits,
optional dot and fraction digits) into `(mantissa, places)` with value
`mantissa * 10 ^ (-places)`. -/
def parseDecimal (s : String) : Option (Int × Nat) :=
  let cs := s.data
  let signBody : Bool × List Char :=
    match cs with
    | '-' :: rest => (true, rest)
    | _ => (false, cs)
  let neg := signBody.1
  let body := signBody.2
  match splitAtDot body with
  | (ip, none) =>
    if ip.isEmpty then none
    else
      match readDigits ip 0 with
      | none => none
      | some n => some (if neg then -(n : Int) else (n : Int), 0)
  | (ip, some fp) =>
    if ip.isEmpty && fp.isEmpty then none
    else
      match readDigits ip 0, readDigits fp 0 with
      | some i, some f =>
        let m : Nat := i * 10 ^ fp.length + f
        some (if neg then -(m : Int) else (m : Int), fp.length)
      | _, _ => none

/-- Digit-count worker, structurally recursive on a fuel argument. -/
def numDigitsAux : Nat → Nat → Nat
  | 0, _ => 0
  | fuel + 1, n => if n = 0 then 0 else numDigitsAux fuel (n / 10) + 1

/-- Number of decimal digits of `n` (0 for `n = 0`), as the digit tuple of
the decimal representation of the mantissa. -/
def numDigits (n : Nat) : Nat := numDigitsAux (n + 1) n

/-- Precision check of `DecimalField(max_digits=10, decimal_places=2)` on a
decimal `mantissa * 10 ^ (-places)`: total digits at most 10, fractional
digits at most 2, whole digits at most 10 - 2 = 8. -/
def validPrecision (m : Int) (places : Nat) : Bool :=
  let digits := numDigits m.natAbs
  let totalDigits := if places = 0 then digits else if places < digits then digits else places
  let wholeDigits := if places = 0 then digits else if places < digits then digits - places else 0
  let decimalPlaces := if places = 0 then 0 else places
  totalDigits ≤ 10 && decimalPlaces ≤ 2 && wholeDigits ≤ 8

/-- Validation of the `preco` field: accepts a decimal-formatted string or
a number, enforces the precision bounds, and quantizes the accepted value
to an exact number of cents. -/
def validatePreco (v : JValue) : Except String Int :=
  match v with
  | .jnull => Except.error "This field may not be null."
  | .jstr s =>
    match parseDecimal s with
    | none => Except.error "A valid number is required."
    | some (m, p) =>
      if validPrecision m p then Except.ok (m * (10 : Int) ^ (2 - p))
      else Except.error "Ensure that there are no more than 10 digits in total."
  | .jint n =>
    if validPrecision n 0 then Except.ok (n * 100)
    else Except.error "Ensure that there are no more than 10 digits in total."
  | .jnum m p =>
    if validPrecision m p then Except.ok (m * (10 : Int) ^ (2 - p))
    else Except.error "Ensure that there are no more than 10 digits in total."

/-- The message reported for a text value over the maximum length. -/
def maxLenMsg (n : Nat) : String :=
  "Ensure this field has no more than " ++ toString n ++ " characters."

/-- Validation of a text field with a maximum length (`CharField`). -/
def validateCharField (maxLength : Nat) (v : JValue) : Except String String :=
  match v with
  | .jnull => Except.error "This field may not be null."
  | .jstr s =>
    if s.length ≤ maxLength then Except.ok s
    else Except.error (maxLenMsg maxLength)
  | _ => Except.error "Not a valid string."

/-- Validation of an integer field (`IntegerField`): accepts an integer
literal, an integral decimal literal, or a string of digits. -/
def validateIntegerField (v : JValue) : Except String Int :=
  match v with
  | .jint n => Except.ok n
  | .jnum m p => if p = 0 then Except.ok m else Except.error "A valid integer is required."
  | .jstr s =>
    match parseDecimal s with
    | some (m, 0) => Except.ok m
    | _ => Except.error "A valid integer is required."
  | .jnull => Except.error "This field may not be null."

/-- The message reported for a missing required field. -/
def requiredMsg : String := "This field is required."

/-- Per-field validation errors: a mapping from field name to message. -/
abbrev FieldErrors := List (String × String)

/-- Validates one required field: absent means a required-field error,
present means running the field validator. -/
def fieldFull {α : Type} (name : String) (v : Option JValue)
    (validate : JValue → Except String α) : Except FieldErrors α :=
  match v with
  | none => Except.error [(name, requiredMsg)]
  | some j => (validate j).mapError (fun e => [(name, e)])

/-- Validates one field for a PATCH request: absent fields are simply not
part of the validated data. -/
def fieldOpt {α : Type} (name : String) (v : Option JValue)
    (validate : JValue → Except String α) : Except FieldErrors (Option α) :=
  match v with
  | none => Except.ok none
  | some j => ((validate j).map some).mapError (fun e => [(name, e)])

/-- Validation of the optional `foto` field (never required; null allowed;
a string stands for an uploaded file reference). -/
def fotoResult (v : Option JValue) : Except FieldErrors (Option (Option String)) :=
  match v with
  | none => Except.ok none
  | some JValue.jnull => Except.ok (some none)
  | some (JValue.jstr s) => Except.ok (some (some s))
  | some _ => Except.error [("foto", "The submitted data was not a file.")]

/-- The error list of a field result (empty when the field validated). -/
def errList {α : Type} : Except FieldErrors α → FieldErrors
  | Except.ok _ => []
  | Except.error e => e

/-- Validated data of a full write (POST/PUT): all required fields present
and valid; `foto` optionally supplied. -/
structure NewCarroData where
  marca : String
  modelo : String
  ano : Int
  preco : Int
  foto : Option (Option String)
  deriving DecidableEq

/-- Validated data of a PATCH: each field either absent or valid. -/
structure PatchData where
  marca : Option String
  modelo : Option String
  ano : Option Int
  preco : Option Int
  foto : Option (Option String)
  deriving DecidableEq

/-- Full deserialization: validates every user field of the input,
collecting the errors of all failing fields; `id` and `criado_em` keys are
not consulted at all (read-only, system-assigned). -/
def validateFull (x : CarroInput) : Except FieldErrors NewCarroData :=
  match fieldFull "marca" x.marca (validateCharField 100),
        fieldFull "modelo" x.modelo (validateCharField 100),
        fieldFull "ano" x.ano validateIntegerField,
        fieldFull "preco" x.preco validatePreco,
        fotoResult x.foto with
  | Except.ok ma, Except.ok mo, Except.ok a, Except.ok p, Except.ok f =>
    Except.ok ⟨ma, mo, a, p, f⟩
  | em, eo, ea, ep, ef =>
    Except.error (errList em ++ errList eo ++ errList ea ++ errList ep ++ errList ef)

/-- PATCH deserialization: validates only the supplied fields, collecting
the errors of all failing fields; `id` and `criado_em` are ignored. -/
def validatePatch (x : CarroInput) : Except FieldErrors PatchData :=
  match fieldOpt "marca" x.marca (validateCharField 100),
        fieldOpt "modelo" x.modelo (validateCharField 100),
        fieldOpt "ano" x.ano validateIntegerField,
        fieldOpt "preco" x.preco validatePreco,
        fotoResult x.foto with
  | Except.ok ma, Except.ok mo, Except.ok a, Except.ok p, Except.ok f =>
    Except.ok ⟨ma, mo, a, p, f⟩
  | em, eo, ea, ep, ef =>
    Except.error (errList em ++ errList eo ++ errList ea ++ errList ep ++ errList ef)

/-- Retrieve: the first row whose id matches, or not-found. -/
def retrieveCarro (i : Nat) (s : Store) : Option Carro :=
  s.rows.find? (fun c => c.id == i)

/-- List: all rows, in insertion order. -/
def listCarros (s : Store) : List Carro := s.rows

/-- Create: validates the input and inserts a new row with a fresh
system-assigned id and `criado_em` set to the insertion clock; on a
validation error the store is unchanged. -/
def createCarro (x : CarroInput) (s : Store) : Except FieldErrors Carro × Store :=
  match validateFull x with
  | Except.error e => (Except.error e, s)
  | Except.ok d =>
    let c : Carro :=
      { id := s.nextId, marca := d.marca, modelo := d.modelo, ano := d.ano,
        preco := d.preco, foto := d.foto.getD none, criado_em := s.now }
    (Except.ok c, { rows := s.rows ++ [c], nextId := s.nextId + 1, now := s.now })

/-- Full update (PUT): replaces every user field of the addressed row from
the validated data; `id` and `criado_em` are untouched. -/
def updateCarro (i : Nat) (x : CarroInput) (s : Store) : Except FieldErrors Carro × Store :=
  match retrieveCarro i s with
  | none => (Except.error [("detail", "Not found.")], s)
  | some c =>
    match validateFull x with
    | Except.error e => (Except.error e, s)
    | Except.ok d =>
      let c' : Carro :=
        { c with marca := d.marca, modelo := d.modelo, ano := d.ano,
                 preco := d.preco, foto := d.foto.getD c.foto }
      (Except.ok c', { s with rows := s.rows.map (fun r => if r.id == i then c' else r) })

/-- PATCH: changes exactly the supplied fields of the addressed row;
`id` and `criado_em` are untouched. -/
def patchCarro (i : Nat) (x : CarroInput) (s : Store) : Except FieldErrors Carro × Store :=
  match retrieveCarro i s with
  | none => (Except.error [("detail", "Not found.")], s)
  | some c =>
    match validatePatch x with
    | Except.error e => (Except.error e, s)
    | Except.ok d =>
      let c' : Carro :=
        { c with marca := d.marca.getD c.marca, modelo := d.modelo.getD c.modelo,
                 ano := d.ano.getD c.ano, preco := d.preco.getD c.preco,
                 foto := match d.foto with | none => c.foto | some o => o }
      (Except.ok c', { s with rows := s.rows.map (fun r => if r.id == i then c' else r) })

/-- Delete: removes the addressed row, or reports not-found. -/
def destroyCarro (i : Nat) (s : Store) : Option Store :=
  match retrieveCarro i s with
  | none => none
  | some _ => some { s with rows := s.rows.filter (fun r => r.id != i) }

/-- Renders the cents fraction of an amount as exactly two digit
characters. -/
def twoDigits (r : Nat) : String :=
  String.mk [Char.ofNat (48 + r / 10 % 10), Char.ofNat (48 + r % 10)]

/-- Renders an exact cents amount as a decimal string with two fractional
digits, the wire format of `preco`. -/
def formatCents (c : Int) : String :=
  (if c < 0 then "-" else "") ++ toString (c.natAbs / 100) ++ "." ++ twoDigits (c.natAbs % 100)

/-- The serialized (output JSON) form of a record: all fields emitted,
`preco` as a 2-decimal string, `foto` null when unset. -/
structure CarroJSON where
  id : Nat
  marca : String
  modelo : String
  ano : Int
  preco : String
  foto : Option String
  criado_em : Nat
  deriving DecidableEq

/-- Serialization of a stored record to its flat JSON object. -/
def serializeCarro (c : Carro) : CarroJSON :=
  { id := c.id, marca := c.marca, modelo := c.modelo, ano := c.ano,
    preco := formatCents c.preco, foto := c.foto, criado_em := c.criado_em }

/-- The result of a Python textual-representation method: either an actual
string, or (erroneously) a tuple of strings. -/
inductive PyStrResult where
  | pyStr (s : String)
  | pyTuple (elems : List String)
  deriving DecidableEq

/-- Translation of `Carro.__str__`: the source returns
`f"{self.marca} {self.modelo}",` — the trailing comma makes the returned
value a one-element tuple, not a string. -/
def Carro.strRepr (c : Carro) : PyStrResult :=
  PyStrResult.pyTuple [c.marca ++ " " ++ c.modelo]

/-- An input with the system-assigned keys removed. -/
def stripReadOnly (x : CarroInput) : CarroInput :=
  { x with id := none, criado_em := none }

/-- Store well-formedness: every row id is below the id sequence, and ids
are pairwise distinct. -/
def Store.wf (s : Store) : Prop :=
  (∀ c ∈ s.rows, c.id < s.nextId) ∧ (s.rows.map Carro.id).Nodup

/-- Length invariant of persisted rows: the two text fields respect their
declared maximum length. -/
def StoreLenInv (s : Store) : Prop :=
  ∀ c ∈ s.rows, c.marca.length ≤ 100 ∧ c.modelo.length ≤ 100

deriving instance DecidableEq for Except

/-- The example create request of the spec:
POST marca "Fiat", modelo "Uno", ano 2010, preco "19999.90". -/
def exInput : CarroInput :=
  { marca := some (JValue.jstr "Fiat"), modelo := some (JValue.jstr "Uno"),
    ano := some (JValue.jint 2010), preco := some (JValue.jstr "19999.90") }

/-- An empty store with the id sequence at 1 and the clock at 500. -/
def emptyStore : Store := { rows := [], nextId := 1, now := 500 }

/-- The record the example request creates in the empty store. -/
def exCarro : Carro :=
  { id := 1, marca := "Fiat", modelo := "Uno", ano := 2010, preco := 1999990,
    foto := none, criado_em := 500 }

/-- The store holding exactly the example record. -/
def exStore : Store := { rows := [exCarro], nextId := 2, now := 500 }

/-- The example PATCH body of the spec: only preco, set to "14999.00". -/
def exPatch : CarroInput := { preco := some (JValue.jstr "14999.00") }

/-- The example record after the example PATCH. -/
def exCarroPatched : Carro := { exCarro with preco := 1499900 }

/-- The store holding the example record after the example PATCH. -/
def exStorePatched : Store := { rows := [exCarroPatched], nextId := 2, now := 500 }

/-- The store after deleting the example record. -/
def exStoreDeleted : Store := { rows := [], nextId := 2, now := 500 }

/-- An otherwise-valid create request with the required field ano absent. -/
def exMissingAno : CarroInput :=
  { marca := some (JValue.jstr "Fiat"), modelo := some (JValue.jstr "Uno"),
    preco := some (JValue.jstr "19999.90") }

/-- A 101-character text, one character over the declared maximum. -/
def longText : String := String.mk (List.replicate 101 'a')

/-- An otherwise-valid create request whose marca exceeds 100 characters. -/
def exLongMarca : CarroInput :=
  { marca := some (JValue.jstr longText), modelo := some (JValue.jstr "Uno"),
    ano := some (JValue.jint 2010), preco := some (JValue.jstr "19999.90") }


lemma numDigitsAux_eq_digits_len (fuel : Nat) : ∀ n : Nat, n < fuel →
    numDigitsAux fuel n = (Nat.digits 10 n).length := by
  induction fuel with
  | zero => intro n h; omega
  | succ fuel ih =>
    intro n h
    unfold numDigitsAux
    by_cases hn : n = 0
    · simp [hn]
    · rw [if_neg hn]
      have hdiv : n / 10 < n := Nat.div_lt_self (Nat.pos_of_ne_zero hn) (by norm_num)
      rw [ih (n / 10) (by omega)]
      rw [Nat.digits_def' (by norm_num : (1 : Nat) < 10) (Nat.pos_of_ne_zero hn)]
      simp

lemma numDigits_eq_digits_len (n : Nat) : numDigits n = (Nat.digits 10 n).length :=
  numDigitsAux_eq_digits_len (n + 1) n (Nat.lt_succ_self n)

lemma lt_pow_of_numDigits_le (n k : Nat) (h : numDigits n ≤ k) : n < 10 ^ k := by
  have h1 : n < 10 ^ (Nat.digits 10 n).length :=
    Nat.lt_base_pow_length_digits (by norm_num)
  have h2 : (10 : Nat) ^ (Nat.digits 10 n).length ≤ 10 ^ k := by
    apply Nat.pow_le_pow_right (by norm_num)
    rw [← numDigits_eq_digits_len]; exact h
  omega

lemma validPrecision_bound (m : Int) (p : Nat) (h : validPrecision m p = true) :
    (m * (10 : Int) ^ (2 - p)).natAbs < 10 ^ 10 := by
  have habs : (m * (10 : Int) ^ (2 - p)).natAbs = m.natAbs * 10 ^ (2 - p) := by
    rw [Int.natAbs_mul, Int.natAbs_pow]
    rfl
  rw [habs]
  unfold validPrecision at h
  simp only [Bool.and_eq_true, decide_eq_true_eq] at h
  obtain ⟨⟨htot, hdec⟩, hwhole⟩ := h
  match p with
  | 0 =>
    simp only [if_pos rfl] at htot hwhole
    have := lt_pow_of_numDigits_le m.natAbs 8 hwhole
    norm_num at this ⊢
    omega
  | 1 =>
    by_cases hlt : 1 < numDigits m.natAbs
    · rw [if_neg (by omega), if_pos hlt] at hwhole
      have : numDigits m.natAbs ≤ 9 := by omega
      have := lt_pow_of_numDigits_le m.natAbs 9 this
      norm_num at this ⊢
      omega
    · have : numDigits m.natAbs ≤ 1 := by omega
      have := lt_pow_of_numDigits_le m.natAbs 1 this
      norm_num at this ⊢
      omega
  | 2 =>
    by_cases hlt : 2 < numDigits m.natAbs
    · rw [if_neg (by omega), if_pos hlt] at htot
      have := lt_pow_of_numDigits_le m.natAbs 10 htot
      norm_num at this ⊢
      omega
    · have : numDigits m.natAbs ≤ 2 := by omega
      have := lt_pow_of_numDigits_le m.natAbs 2 this
      norm_num at this ⊢
      omega
  | q + 3 =>
    rw [if_neg (by omega)] at hdec
    omega

lemma validatePreco_bound (v : JValue) (cents : Int)
    (h : validatePreco v = Except.ok cents) : cents.natAbs < 10 ^ 10 := by
  unfold validatePreco at h
  match v with
  | JValue.jnull => exact absurd h (by simp)
  | JValue.jstr s =>
    simp only at h
    split at h
    · exact absurd h (by simp)
    · split at h
      · cases h; exact validPrecision_bound _ _ (by assumption)
      · exact absurd h (by simp)
  | JValue.jint n =>
    simp only at h
    split at h
    · cases h
      have := validPrecision_bound n 0 (by assumption)
      simpa using this
    · exact absurd h (by simp)
  | JValue.jnum m p =>
    simp only at h
    split at h
    · cases h; exact validPrecision_bound m p (by assumption)
    · exact absurd h (by simp)

lemma validateFull_ok_iff (x : CarroInput) (d : NewCarroData) :
    validateFull x = Except.ok d ↔
      fieldFull "marca" x.marca (validateCharField 100) = Except.ok d.marca ∧
      fieldFull "modelo" x.modelo (validateCharField 100) = Except.ok d.modelo ∧
      fieldFull "ano" x.ano validateIntegerField = Except.ok d.ano ∧
      fieldFull "preco" x.preco validatePreco = Except.ok d.preco ∧
      fotoResult x.foto = Except.ok d.foto := by
  unfold validateFull
  constructor
  · intro h
    split at h
    · next ma mo a p f hm hmo ha hp hf =>
      cases h
      exact ⟨hm, hmo, ha, hp, hf⟩
    · exact absurd h (by simp)
  · rintro ⟨hm, hmo, ha, hp, hf⟩
    rw [hm, hmo, ha, hp, hf]

lemma validatePatch_ok_iff (x : CarroInput) (d : PatchData) :
    validatePatch x = Except.ok d ↔
      fieldOpt "marca" x.marca (validateCharField 100) = Except.ok d.marca ∧
      fieldOpt "modelo" x.modelo (validateCharField 100) = Except.ok d.modelo ∧
      fieldOpt "ano" x.ano validateIntegerField = Except.ok d.ano ∧
      fieldOpt "preco" x.preco validatePreco = Except.ok d.preco ∧
      fotoResult x.foto = Except.ok d.foto := by
  unfold validatePatch
  constructor
  · intro h
    split at h
    · next ma mo a p f hm hmo ha hp hf =>
      cases h
      exact ⟨hm, hmo, ha, hp, hf⟩
    · exact absurd h (by simp)
  · rintro ⟨hm, hmo, ha, hp, hf⟩
    rw [hm, hmo, ha, hp, hf]

lemma fieldFull_some {α : Type} (name : String) (j : JValue)
    (validate : JValue → Except String α) (a : α)
    (h : fieldFull name (some j) validate = Except.ok a) : validate j = Except.ok a := by
  simp only [fieldFull] at h
  cases hv : validate j <;> rw [hv] at h <;> simp_all [Except.mapError]

lemma charField_ok (maxLength : Nat) (j : JValue) (v : String)
    (h : validateCharField maxLength j = Except.ok v) :
    j = JValue.jstr v ∧ v.length ≤ maxLength := by
  unfold validateCharField at h
  match j with
  | JValue.jnull => exact absurd h (by simp)
  | JValue.jstr s =>
    simp only at h
    split at h
    all_goals (cases h; try exact ⟨rfl, by assumption⟩)
  | JValue.jint n => exact absurd h (by simp)
  | JValue.jnum m p => exact absurd h (by simp)

lemma fieldOpt_some {α : Type} (name : String) (j : JValue)
    (validate : JValue → Except String α) (o : Option α)
    (h : fieldOpt name (some j) validate = Except.ok o) :
    ∃ a, o = some a ∧ validate j = Except.ok a := by
  simp only [fieldOpt] at h
  cases hv : validate j <;> rw [hv] at h <;> simp_all [Except.mapError, Except.map]

lemma find?_append_fresh (l : List Carro) (c : Carro) (i : Nat)
    (hl : ∀ r ∈ l, r.id ≠ i) (hc : c.id = i) :
    (l ++ [c]).find? (fun r => r.id == i) = some c := by
  induction l with
  | nil => simp [hc]
  | cons r l ih =>
    have hr : ¬ (r.id == i) = true := by
      simp only [beq_iff_eq]
      exact hl r (List.mem_cons_self r l)
    rw [List.cons_append, List.find?_cons_of_neg (p := fun r : Carro => r.id == i) _ hr]
    exact ih (fun r' hr' => hl r' (List.mem_cons_of_mem r hr'))

lemma find?_map_replace (l : List Carro) (i : Nat) (c c2 : Carro) (h2 : c2.id = i)
    (h : l.find? (fun r => r.id == i) = some c) :
    (l.map (fun r => if r.id == i then c2 else r)).find? (fun r => r.id == i) = some c2 := by
  induction l with
  | nil => simp at h
  | cons r l ih =>
    by_cases hr : (r.id == i) = true
    · simp only [List.map_cons, if_pos hr]
      exact List.find?_cons_of_pos (p := fun r : Carro => r.id == i) _ (by simp [h2])
    · rw [List.find?_cons_of_neg (p := fun r : Carro => r.id == i) _ hr] at h
      simp only [List.map_cons, if_neg hr]
      rw [List.find?_cons_of_neg (p := fun r : Carro => r.id == i) _ hr]
      exact ih h

lemma createCarro_ok (x : CarroInput) (s : Store) (c : Carro) (s2 : Store)
    (h : createCarro x s = (Except.ok c, s2)) :
    ∃ d, validateFull x = Except.ok d ∧
      c = { id := s.nextId, marca := d.marca, modelo := d.modelo, ano := d.ano,
            preco := d.preco, foto := d.foto.getD none, criado_em := s.now } ∧
      s2 = { rows := s.rows ++ [c], nextId := s.nextId + 1, now := s.now } := by
  unfold createCarro at h
  cases hv : validateFull x with
  | error e => rw [hv] at h; simp at h
  | ok d =>
    rw [hv] at h
    simp only [Prod.mk.injEq, Except.ok.injEq] at h
    refine ⟨d, rfl, h.1.symm, ?_⟩
    rw [← h.2, h.1]

lemma create_fields (x : CarroInput) (s : Store) (c : Carro) (s2 : Store)
    (h : createCarro x s = (Except.ok c, s2)) :
    (∀ ma, x.marca = some (JValue.jstr ma) → c.marca = ma) ∧
    (∀ mo, x.modelo = some (JValue.jstr mo) → c.modelo = mo) ∧
    (∀ a, x.ano = some (JValue.jint a) → c.ano = a) ∧
    (∀ j cents, x.preco = some j → validatePreco j = Except.ok cents → c.preco = cents) ∧
    (∀ f, x.foto = some (JValue.jstr f) → c.foto = some f) ∧
    ((x.foto = none ∨ x.foto = some JValue.jnull) → c.foto = none) ∧
    c.id = s.nextId ∧ c.criado_em = s.now := by
  obtain ⟨d, hval, hc, hs2⟩ := createCarro_ok x s c s2 h
  obtain ⟨hm, hmo, ha, hp, hf⟩ := (validateFull_ok_iff x d).mp hval
  subst hc
  refine ⟨?_, ?_, ?_, ?_, ?_, ?_, rfl, rfl⟩
  · intro ma hma
    rw [hma] at hm
    have h2 := charField_ok 100 _ _ (fieldFull_some _ _ _ _ hm)
    exact (JValue.jstr.inj h2.1).symm
  · intro mo hmo2
    rw [hmo2] at hmo
    have h2 := charField_ok 100 _ _ (fieldFull_some _ _ _ _ hmo)
    exact (JValue.jstr.inj h2.1).symm
  · intro a ha2
    rw [ha2] at ha
    have h2 := fieldFull_some _ _ _ _ ha
    have h3 : validateIntegerField (JValue.jint a) = Except.ok a := rfl
    rw [h3] at h2
    exact (Except.ok.inj h2).symm
  · intro j cents hj hcents
    rw [hj] at hp
    have h2 := fieldFull_some _ _ _ _ hp
    rw [hcents] at h2
    exact (Except.ok.inj h2).symm
  · intro f hfo
    rw [hfo] at hf
    have h2 : Except.ok (ε := FieldErrors) (some (some f)) = Except.ok d.foto := hf
    have h3 := Except.ok.inj h2
    simp [← h3]
  · intro hfo
    cases hfo with
    | inl hn =>
      rw [hn] at hf
      have h3 := Except.ok.inj hf
      simp [← h3]
    | inr hn =>
      rw [hn] at hf
      have h2 : Except.ok (ε := FieldErrors) (some (none : Option String)) = Except.ok d.foto := hf
      have h3 := Except.ok.inj h2
      simp [← h3]

/-- Claim C1: serializing the record produced by deserializing a valid input
reproduces every user-supplied field of the input (marca, modelo, ano,
preco, foto — preco re-emitted as the 2-decimal rendering of the accepted
value, foto null when unset), while id and criado_em are newly
system-generated (the fresh id and the insertion clock), not taken from
the input. -/
theorem serialize_after_deserialize (x : CarroInput) (s : Store) (c : Carro)
    (s2 : Store) (h : createCarro x s = (Except.ok c, s2)) :
    (∀ ma, x.marca = some (JValue.jstr ma) → (serializeCarro c).marca = ma) ∧
    (∀ mo, x.modelo = some (JValue.jstr mo) → (serializeCarro c).modelo = mo) ∧
    (∀ a, x.ano = some (JValue.jint a) → (serializeCarro c).ano = a) ∧
    (∀ j cents, x.preco = some j → validatePreco j = Except.ok cents →
       (serializeCarro c).preco = formatCents cents) ∧
    (∀ f, x.foto = some (JValue.jstr f) → (serializeCarro c).foto = some f) ∧
    ((x.foto = none ∨ x.foto = some JValue.jnull) → (serializeCarro c).foto = none) ∧
    (serializeCarro c).id = s.nextId ∧ (serializeCarro c).criado_em = s.now := by
  obtain ⟨h1, h2, h3, h4, h5, h6, h7, h8⟩ := create_fields x s c s2 h
  refine ⟨h1, h2, h3, ?_, h5, h6, h7, h8⟩
  intro j cents hj hcents
  have : (serializeCarro c).preco = formatCents c.preco := rfl
  rw [this, h4 j cents hj hcents]

theorem serialize_after_deserialize_witness :
    (serializeCarro exCarro).marca = "Fiat" ∧ (serializeCarro exCarro).modelo = "Uno" ∧
    (serializeCarro exCarro).ano = 2010 ∧
    (serializeCarro exCarro).preco = formatCents 1999990 ∧
    (serializeCarro exCarro).foto = none ∧
    (serializeCarro exCarro).id = emptyStore.nextId ∧
    (serializeCarro exCarro).criado_em = emptyStore.now := by
  have T := serialize_after_deserialize exInput emptyStore exCarro exStore (by decide)
  exact ⟨T.1 "Fiat" rfl, T.2.1 "Uno" rfl, T.2.2.1 2010 rfl,
         T.2.2.2.1 (JValue.jstr "19999.90") 1999990 rfl (by decide),
         T.2.2.2.2.2.1 (Or.inl rfl), T.2.2.2.2.2.2⟩

/-- Claim C2: creating a record from a valid request on a well-formed store and
then retrieving it by the id returned from the create yields a record
whose marca, modelo, ano, preco and foto equal the user-supplied values. -/
theorem create_then_retrieve (x : CarroInput) (s : Store) (c : Carro) (s2 : Store)
    (hwf : Store.wf s) (h : createCarro x s = (Except.ok c, s2)) :
    retrieveCarro c.id s2 = some c ∧
    (∀ ma, x.marca = some (JValue.jstr ma) → c.marca = ma) ∧
    (∀ mo, x.modelo = some (JValue.jstr mo) → c.modelo = mo) ∧
    (∀ a, x.ano = some (JValue.jint a) → c.ano = a) ∧
    (∀ j cents, x.preco = some j → validatePreco j = Except.ok cents → c.preco = cents) ∧
    (∀ f, x.foto = some (JValue.jstr f) → c.foto = some f) := by
  obtain ⟨h1, h2, h3, h4, h5, h6, h7, h8⟩ := create_fields x s c s2 h
  refine ⟨?_, h1, h2, h3, h4, h5⟩
  obtain ⟨d, hval, hc, hs2⟩ := createCarro_ok x s c s2 h
  rw [hs2]
  unfold retrieveCarro
  simp only
  exact find?_append_fresh s.rows c c.id
    (fun r hr => by have := hwf.1 r hr; omega) rfl

theorem create_then_retrieve_witness :
    retrieveCarro exCarro.id exStore = some exCarro ∧ exCarro.marca = "Fiat" ∧
    exCarro.ano = 2010 ∧ exCarro.preco = 1999990 := by
  have T := create_then_retrieve exInput emptyStore exCarro exStore (by constructor <;> decide) (by decide)
  exact ⟨T.1, T.2.1 "Fiat" rfl, T.2.2.2.1 2010 rfl,
         T.2.2.2.2.1 (JValue.jstr "19999.90") 1999990 rfl (by decide)⟩

lemma errList_fieldFull_none {α : Type} (name : String)
    (validate : JValue → Except String α) :
    errList (fieldFull name none validate) = [(name, requiredMsg)] := rfl

lemma fieldFull_none_error {α : Type} (name : String)
    (validate : JValue → Except String α) :
    fieldFull name none validate = Except.error [(name, requiredMsg)] := rfl

/-- Claim C3: a create request missing any of the required fields marca, modelo,
ano or preco fails with a validation error whose field-to-message list
names each missing field with the required-field message, and the store is
returned unchanged (no record persisted). -/
theorem create_missing_required (x : CarroInput) (s : Store)
    (hmiss : x.marca = none ∨ x.modelo = none ∨ x.ano = none ∨ x.preco = none) :
    ∃ l, createCarro x s = (Except.error l, s) ∧
      (x.marca = none → ("marca", requiredMsg) ∈ l) ∧
      (x.modelo = none → ("modelo", requiredMsg) ∈ l) ∧
      (x.ano = none → ("ano", requiredMsg) ∈ l) ∧
      (x.preco = none → ("preco", requiredMsg) ∈ l) := by
  have hval : ∃ l, validateFull x = Except.error l ∧
      (x.marca = none → ("marca", requiredMsg) ∈ l) ∧
      (x.modelo = none → ("modelo", requiredMsg) ∈ l) ∧
      (x.ano = none → ("ano", requiredMsg) ∈ l) ∧
      (x.preco = none → ("preco", requiredMsg) ∈ l) := by
    unfold validateFull
    split
    · next ma mo a p f hm hmo ha hp hf =>
      exfalso
      rcases hmiss with hn | hn | hn | hn <;> simp_all [fieldFull_none_error]
    · refine ⟨_, rfl, ?_, ?_, ?_, ?_⟩ <;> intro hn <;> rw [hn] <;>
        simp [errList_fieldFull_none]
  obtain ⟨l, hl, h1, h2, h3, h4⟩ := hval
  refine ⟨l, ?_, h1, h2, h3, h4⟩
  unfold createCarro
  rw [hl]

theorem create_missing_required_witness :
    ∃ l, createCarro exMissingAno emptyStore = (Except.error l, emptyStore) ∧
      (exMissingAno.marca = none → ("marca", requiredMsg) ∈ l) ∧
      (exMissingAno.modelo = none → ("modelo", requiredMsg) ∈ l) ∧
      (exMissingAno.ano = none → ("ano", requiredMsg) ∈ l) ∧
      (exMissingAno.preco = none → ("preco", requiredMsg) ∈ l) :=
  create_missing_required exMissingAno emptyStore (Or.inr (Or.inr (Or.inl rfl)))

lemma patchCarro_ok (i : Nat) (x : CarroInput) (s : Store) (c2 : Carro) (s2 : Store)
    (h : patchCarro i x s = (Except.ok c2, s2)) :
    ∃ c d, retrieveCarro i s = some c ∧ validatePatch x = Except.ok d ∧
      c2 = { c with marca := d.marca.getD c.marca, modelo := d.modelo.getD c.modelo,
                    ano := d.ano.getD c.ano, preco := d.preco.getD c.preco,
                    foto := match d.foto with | none => c.foto | some o => o } ∧
      s2 = { s with rows := s.rows.map (fun r => if r.id == i then c2 else r) } := by
  unfold patchCarro at h
  cases hr : retrieveCarro i s with
  | none => rw [hr] at h; simp at h
  | some c =>
    rw [hr] at h
    cases hv : validatePatch x with
    | error e => rw [hv] at h; simp at h
    | ok d =>
      rw [hv] at h
      simp only [Prod.mk.injEq, Except.ok.injEq] at h
      refine ⟨c, d, rfl, rfl, h.1.symm, ?_⟩
      rw [← h.2, h.1]

lemma updateCarro_ok (i : Nat) (x : CarroInput) (s : Store) (c2 : Carro) (s2 : Store)
    (h : updateCarro i x s = (Except.ok c2, s2)) :
    ∃ c d, retrieveCarro i s = some c ∧ validateFull x = Except.ok d ∧
      c2 = { c with marca := d.marca, modelo := d.modelo, ano := d.ano,
                    preco := d.preco, foto := d.foto.getD c.foto } ∧
      s2 = { s with rows := s.rows.map (fun r => if r.id == i then c2 else r) } := by
  unfold updateCarro at h
  cases hr : retrieveCarro i s with
  | none => rw [hr] at h; simp at h
  | some c =>
    rw [hr] at h
    cases hv : validateFull x with
    | error e => rw [hv] at h; simp at h
    | ok d =>
      rw [hv] at h
      simp only [Prod.mk.injEq, Except.ok.injEq] at h
      refine ⟨c, d, rfl, rfl, h.1.symm, ?_⟩
      rw [← h.2, h.1]

/-- Claim C4: a PATCH that supplies only preco changes preco to the accepted
value and leaves marca, modelo, ano, foto, id and criado_em of the record
unchanged; the updated record is what retrieval by that id then returns. -/
theorem patch_price_only_frame (i : Nat) (v : JValue) (s : Store) (c c2 : Carro)
    (s2 : Store) (hc : retrieveCarro i s = some c)
    (h : patchCarro i { preco := some v } s = (Except.ok c2, s2)) :
    (∃ cents, validatePreco v = Except.ok cents ∧ c2.preco = cents) ∧
    c2.marca = c.marca ∧ c2.modelo = c.modelo ∧ c2.ano = c.ano ∧
    c2.id = c.id ∧ c2.criado_em = c.criado_em ∧ c2.foto = c.foto ∧
    retrieveCarro i s2 = some c2 := by
  obtain ⟨c', d, hr, hval, hc2, hs2⟩ := patchCarro_ok i _ s c2 s2 h
  rw [hc] at hr
  have hcc : c' = c := (Option.some.inj hr).symm
  subst hcc
  obtain ⟨hm, hmo, ha, hp, hf⟩ := (validatePatch_ok_iff _ d).mp hval
  have hdm : d.marca = none := (Except.ok.inj hm).symm
  have hdmo : d.modelo = none := (Except.ok.inj hmo).symm
  have hda : d.ano = none := (Except.ok.inj ha).symm
  have hdf : d.foto = none := (Except.ok.inj hf).symm
  obtain ⟨cents, hdp, hv⟩ := fieldOpt_some _ _ _ _ hp
  have hid : c'.id = i := by
    have := List.find?_some hc
    simpa using this
  refine ⟨⟨cents, hv, by rw [hc2]; simp [hdp]⟩, ?_, ?_, ?_, ?_, ?_, ?_, ?_⟩
  · rw [hc2]; simp [hdm]
  · rw [hc2]; simp [hdmo]
  · rw [hc2]; simp [hda]
  · rw [hc2]
  · rw [hc2]
  · rw [hc2]; simp [hdf]
  · rw [hs2]
    unfold retrieveCarro
    simp only
    exact find?_map_replace s.rows i c' c2 (by rw [hc2]; exact hid) hc

theorem patch_price_only_frame_witness :
    (∃ cents, validatePreco (JValue.jstr "14999.00") = Except.ok cents ∧
       exCarroPatched.preco = cents) ∧
    exCarroPatched.marca = exCarro.marca ∧ exCarroPatched.modelo = exCarro.modelo ∧
    exCarroPatched.ano = exCarro.ano ∧ exCarroPatched.id = exCarro.id ∧
    exCarroPatched.criado_em = exCarro.criado_em ∧ exCarroPatched.foto = exCarro.foto ∧
    retrieveCarro 1 exStorePatched = some exCarroPatched :=
  patch_price_only_frame 1 (JValue.jstr "14999.00") exStore exCarro exCarroPatched
    exStorePatched (by decide) (by decide)

/-- Claim C5: after a delete succeeds for an id, retrieval by that id returns
not-found and the id no longer appears among the ids of the results of the
list operation. -/
theorem delete_then_not_found (i : Nat) (s s2 : Store)
    (h : destroyCarro i s = some s2) :
    retrieveCarro i s2 = none ∧ i ∉ (listCarros s2).map Carro.id := by
  have hs2 : s2 = { s with rows := s.rows.filter (fun r => r.id != i) } := by
    unfold destroyCarro at h
    cases hr : retrieveCarro i s with
    | none => rw [hr] at h; simp at h
    | some c => rw [hr] at h; exact (Option.some.inj h).symm
  subst hs2
  constructor
  · unfold retrieveCarro
    simp only
    rw [List.find?_eq_none]
    intro r hr
    have := (List.mem_filter.mp hr).2
    simpa using this
  · intro hmem
    unfold listCarros at hmem
    simp only [List.mem_map] at hmem
    obtain ⟨r, hr, hid⟩ := hmem
    have := (List.mem_filter.mp hr).2
    simp [hid] at this

theorem delete_then_not_found_witness :
    retrieveCarro 1 exStoreDeleted = none ∧
    1 ∉ (listCarros exStoreDeleted).map Carro.id :=
  delete_then_not_found 1 exStore exStoreDeleted (by decide)

lemma rows_pairs_preserved (rows : List Carro) (i : Nat) (c' c2 : Carro)
    (hnd : (rows.map Carro.id).Nodup) (hfind : rows.find? (fun r => r.id == i) = some c')
    (hid : c2.id = c'.id) (hcr : c2.criado_em = c'.criado_em) :
    (rows.map (fun r => if r.id == i then c2 else r)).map (fun r => (r.id, r.criado_em)) =
      rows.map (fun r => (r.id, r.criado_em)) := by
  rw [List.map_map]
  apply List.map_congr_left
  intro r hr
  by_cases hri : (r.id == i) = true
  · have hmem : c' ∈ rows := List.mem_of_find?_eq_some hfind
    have hcid : (c'.id == i) = true :=
      List.find?_some (p := fun r : Carro => r.id == i) hfind
    have hrc : r = c' := by
      apply List.inj_on_of_nodup_map hnd hr hmem
      simp only [beq_iff_eq] at hri hcid
      rw [hri, hcid]
    simp only [Function.comp_apply, if_pos hri]
    rw [hrc, hid, hcr]
  · simp only [Function.comp_apply, if_neg hri]

/-- Claim C6: criado_em is assigned exactly once, at insertion (it is the
insertion clock of the create operation), and neither a full update nor a
PATCH changes the criado_em of any row; likewise id is assigned at insertion,
is fresh (unique) relative to every persisted row of a well-formed store,
keeps the store well-formed, and is never changed by updates. -/
theorem id_criado_em_invariants :
    (∀ x s c s2, createCarro x s = (Except.ok c, s2) →
       c.criado_em = s.now ∧ c.id = s.nextId ∧
       (Store.wf s → c.id ∉ s.rows.map Carro.id ∧ Store.wf s2)) ∧
    (∀ i x s c2 s2, Store.wf s → updateCarro i x s = (Except.ok c2, s2) →
       s2.rows.map (fun r => (r.id, r.criado_em)) =
         s.rows.map (fun r => (r.id, r.criado_em))) ∧
    (∀ i x s c2 s2, Store.wf s → patchCarro i x s = (Except.ok c2, s2) →
       s2.rows.map (fun r => (r.id, r.criado_em)) =
         s.rows.map (fun r => (r.id, r.criado_em))) := by
  refine ⟨?_, ?_, ?_⟩
  · intro x s c s2 h
    obtain ⟨d, hval, hc, hs2⟩ := createCarro_ok x s c s2 h
    subst hc
    refine ⟨rfl, rfl, ?_⟩
    intro hwf
    constructor
    · intro hmem
      simp only [List.mem_map] at hmem
      obtain ⟨r, hr, hid⟩ := hmem
      have := hwf.1 r hr
      omega
    · subst hs2
      constructor
      · intro r hr
        simp only [List.mem_append, List.mem_singleton] at hr
        cases hr with
        | inl hr => have := hwf.1 r hr; simp only; omega
        | inr hr => subst hr; simp only; omega
      · simp only [List.map_append, List.map_cons, List.map_nil]
        rw [List.nodup_append]
        refine ⟨hwf.2, List.nodup_singleton _, ?_⟩
        intro a ha hb
        simp only [List.mem_singleton] at hb
        subst hb
        simp only [List.mem_map] at ha
        obtain ⟨r, hr, hid⟩ := ha
        have := hwf.1 r hr
        omega
  · intro i x s c2 s2 hwf h
    obtain ⟨c', d, hr, hval, hc2, hs2⟩ := updateCarro_ok i x s c2 s2 h
    subst hs2
    exact rows_pairs_preserved s.rows i c' c2 hwf.2 hr (by rw [hc2]) (by rw [hc2])
  · intro i x s c2 s2 hwf h
    obtain ⟨c', d, hr, hval, hc2, hs2⟩ := patchCarro_ok i x s c2 s2 h
    subst hs2
    exact rows_pairs_preserved s.rows i c' c2 hwf.2 hr (by rw [hc2]) (by rw [hc2])

theorem id_criado_em_invariants_witness :
    (exCarro.criado_em = emptyStore.now ∧ exCarro.id = emptyStore.nextId ∧
       (Store.wf emptyStore → exCarro.id ∉ emptyStore.rows.map Carro.id ∧ Store.wf exStore)) ∧
    exStorePatched.rows.map (fun r => (r.id, r.criado_em)) =
      exStore.rows.map (fun r => (r.id, r.criado_em)) :=
  ⟨id_criado_em_invariants.1 exInput emptyStore exCarro exStore (by decide),
   id_criado_em_invariants.2.2 1 exPatch exStore exCarroPatched exStorePatched
     (by constructor <;> decide) (by decide)⟩

/-- Claim C7: values supplied for the read-only keys id and criado_em are never
accepted into the stored record: every write operation behaves identically
on an input with those keys and on the same input with them removed. -/
theorem readonly_fields_ignored (x : CarroInput) (i : Nat) (s : Store) :
    createCarro x s = createCarro (stripReadOnly x) s ∧
    updateCarro i x s = updateCarro i (stripReadOnly x) s ∧
    patchCarro i x s = patchCarro i (stripReadOnly x) s :=
  ⟨rfl, rfl, rfl⟩

/-- Claim C8: an accepted preco is an exact decimal whose cents representation
stays below 10 ^ 10 (at most 10 significant digits, two of them
fractional); its wire rendering carries exactly 2 fractional digits; a
price is accepted as a decimal-formatted string exactly as the equal
number; and the stored preco of every created record satisfies the bound. -/
theorem preco_decimal_contract :
    (∀ j cents, validatePreco j = Except.ok cents →
       cents.natAbs < 10 ^ 10 ∧
       ∃ ip fr, formatCents cents = ip ++ "." ++ fr ∧ fr.length = 2) ∧
    (∀ s m p, parseDecimal s = some (m, p) →
       validatePreco (JValue.jstr s) = validatePreco (JValue.jnum m p)) ∧
    (∀ x st c st2, createCarro x st = (Except.ok c, st2) → c.preco.natAbs < 10 ^ 10) := by
  refine ⟨?_, ?_, ?_⟩
  · intro j cents h
    exact ⟨validatePreco_bound j cents h,
      (if cents < 0 then "-" else "") ++ toString (cents.natAbs / 100),
      twoDigits (cents.natAbs % 100), rfl, rfl⟩
  · intro s m p h
    simp only [validatePreco]
    rw [h]
  · intro x st c st2 h
    obtain ⟨d, hval, hc, hs2⟩ := createCarro_ok x st c st2 h
    obtain ⟨hm, hmo, ha, hp, hf⟩ := (validateFull_ok_iff x d).mp hval
    subst hc
    cases hx : x.preco with
    | none => rw [hx] at hp; exact absurd hp (by simp [fieldFull_none_error])
    | some j =>
      rw [hx] at hp
      exact validatePreco_bound j d.preco (fieldFull_some _ _ _ _ hp)

theorem preco_decimal_contract_witness :
    ((1999990 : Int).natAbs < 10 ^ 10 ∧
       ∃ ip fr, formatCents 1999990 = ip ++ "." ++ fr ∧ fr.length = 2) ∧
    validatePreco (JValue.jstr "19999.90") = validatePreco (JValue.jnum 1999990 2) ∧
    exCarro.preco.natAbs < 10 ^ 10 :=
  ⟨preco_decimal_contract.1 (JValue.jstr "19999.90") 1999990 (by decide),
   preco_decimal_contract.2.1 "19999.90" 1999990 2 (by decide),
   preco_decimal_contract.2.2 exInput emptyStore exCarro exStore (by decide)⟩

/-- Claim C9: the textual-representation method of a record returns a one-element
tuple holding "marca modelo" — never the plain string — because of the
trailing comma in the source. -/
theorem str_method_returns_tuple (c : Carro) :
    c.strRepr = PyStrResult.pyTuple [c.marca ++ " " ++ c.modelo] ∧
    ∀ s, c.strRepr ≠ PyStrResult.pyStr s :=
  ⟨rfl, fun _ h => PyStrResult.noConfusion h⟩

theorem str_method_returns_tuple_witness :
    exCarro.strRepr = PyStrResult.pyTuple ["Fiat Uno"] ∧
    exCarro.strRepr ≠ PyStrResult.pyStr "Fiat Uno" :=
  ⟨(str_method_returns_tuple exCarro).1, (str_method_returns_tuple exCarro).2 "Fiat Uno"⟩

lemma fieldFull_some_error {α : Type} (name : String) (j : JValue)
    (validate : JValue → Except String α) (e : String)
    (h : validate j = Except.error e) :
    fieldFull name (some j) validate = Except.error [(name, e)] := by
  simp [fieldFull, h, Except.mapError]

lemma charField_too_long (ma : String) (hlen : 100 < ma.length) :
    validateCharField 100 (JValue.jstr ma) = Except.error (maxLenMsg 100) := by
  simp only [validateCharField]
  rw [if_neg (by omega)]

lemma validateFull_len (x : CarroInput) (d : NewCarroData)
    (hval : validateFull x = Except.ok d) :
    d.marca.length ≤ 100 ∧ d.modelo.length ≤ 100 := by
  obtain ⟨hm, hmo, ha, hp, hf⟩ := (validateFull_ok_iff x d).mp hval
  constructor
  · cases hx : x.marca with
    | none => rw [hx] at hm; exact absurd hm (by simp [fieldFull_none_error])
    | some j =>
      rw [hx] at hm
      exact (charField_ok 100 _ _ (fieldFull_some _ _ _ _ hm)).2
  · cases hx : x.modelo with
    | none => rw [hx] at hmo; exact absurd hmo (by simp [fieldFull_none_error])
    | some j =>
      rw [hx] at hmo
      exact (charField_ok 100 _ _ (fieldFull_some _ _ _ _ hmo)).2

lemma validatePatch_len (x : CarroInput) (d : PatchData)
    (hval : validatePatch x = Except.ok d) :
    (∀ v, d.marca = some v → v.length ≤ 100) ∧
    (∀ v, d.modelo = some v → v.length ≤ 100) := by
  obtain ⟨hm, hmo, ha, hp, hf⟩ := (validatePatch_ok_iff x d).mp hval
  constructor
  · intro v hv
    cases hx : x.marca with
    | none =>
      rw [hx] at hm
      have : (none : Option String) = d.marca := Except.ok.inj hm
      rw [← this] at hv
      cases hv
    | some j =>
      rw [hx] at hm
      obtain ⟨a, hda, hja⟩ := fieldOpt_some _ _ _ _ hm
      rw [hda] at hv
      cases hv
      exact (charField_ok 100 _ _ hja).2
  · intro v hv
    cases hx : x.modelo with
    | none =>
      rw [hx] at hmo
      have : (none : Option String) = d.modelo := Except.ok.inj hmo
      rw [← this] at hv
      cases hv
    | some j =>
      rw [hx] at hmo
      obtain ⟨a, hda, hja⟩ := fieldOpt_some _ _ _ _ hmo
      rw [hda] at hv
      cases hv
      exact (charField_ok 100 _ _ hja).2

lemma createCarro_error_of_field (x : CarroInput) (st : Store) (pair : String × String)
    (hmem : pair ∈ errList (fieldFull "marca" x.marca (validateCharField 100)) ∨
            pair ∈ errList (fieldFull "modelo" x.modelo (validateCharField 100)))
    (hne : (fieldFull "marca" x.marca (validateCharField 100)).isOk = false ∨
           (fieldFull "modelo" x.modelo (validateCharField 100)).isOk = false) :
    ∃ l, createCarro x st = (Except.error l, st) ∧ pair ∈ l := by
  have hval : ∃ l, validateFull x = Except.error l ∧ pair ∈ l := by
    unfold validateFull
    split
    · next ma mo a p f hm hmo ha hp hf =>
      exfalso
      rcases hne with hn | hn
      · rw [hm] at hn; simp [Except.isOk, Except.toBool] at hn
      · rw [hmo] at hn; simp [Except.isOk, Except.toBool] at hn
    · refine ⟨_, rfl, ?_⟩
      rcases hmem with hn | hn <;> simp [List.mem_append, hn]
  obtain ⟨l, hl, hp⟩ := hval
  refine ⟨l, ?_, hp⟩
  unfold createCarro
  rw [hl]

/-- Claim C10: marca and modelo are limited to 100 characters — a create request
whose marca or modelo exceeds 100 characters fails with a validation error
naming that field, and the length invariant of persisted rows is preserved
by every operation. -/
theorem marca_modelo_maxlength :
    (∀ x st ma, x.marca = some (JValue.jstr ma) → 100 < ma.length →
       ∃ l, createCarro x st = (Except.error l, st) ∧ ("marca", maxLenMsg 100) ∈ l) ∧
    (∀ x st mo, x.modelo = some (JValue.jstr mo) → 100 < mo.length →
       ∃ l, createCarro x st = (Except.error l, st) ∧ ("modelo", maxLenMsg 100) ∈ l) ∧
    (∀ x st r s2, StoreLenInv st → createCarro x st = (r, s2) → StoreLenInv s2) ∧
    (∀ i x st r s2, StoreLenInv st → updateCarro i x st = (r, s2) → StoreLenInv s2) ∧
    (∀ i x st r s2, StoreLenInv st → patchCarro i x st = (r, s2) → StoreLenInv s2) ∧
    (∀ i st s2, StoreLenInv st → destroyCarro i st = some s2 → StoreLenInv s2) := by
  refine ⟨?_, ?_, ?_, ?_, ?_, ?_⟩
  · intro x st ma hx hlen
    have hf : fieldFull "marca" x.marca (validateCharField 100) =
        Except.error [("marca", maxLenMsg 100)] := by
      rw [hx]
      exact fieldFull_some_error _ _ _ _ (charField_too_long ma hlen)
    apply createCarro_error_of_field
    · left; rw [hf]; simp [errList]
    · left; rw [hf]; rfl
  · intro x st mo hx hlen
    have hf : fieldFull "modelo" x.modelo (validateCharField 100) =
        Except.error [("modelo", maxLenMsg 100)] := by
      rw [hx]
      exact fieldFull_some_error _ _ _ _ (charField_too_long mo hlen)
    apply createCarro_error_of_field
    · right; rw [hf]; simp [errList]
    · right; rw [hf]; rfl
  · intro x st r s2 hinv h
    unfold createCarro at h
    cases hv : validateFull x with
    | error e =>
      rw [hv] at h
      cases h
      exact hinv
    | ok d =>
      rw [hv] at h
      cases h
      intro c hc
      simp only [List.mem_append, List.mem_singleton] at hc
      cases hc with
      | inl hc => exact hinv c hc
      | inr hc =>
        subst hc
        exact validateFull_len x d hv
  · intro i x st r s2 hinv h
    unfold updateCarro at h
    cases hr : retrieveCarro i st with
    | none => rw [hr] at h; cases h; exact hinv
    | some c =>
      rw [hr] at h
      cases hv : validateFull x with
      | error e => rw [hv] at h; cases h; exact hinv
      | ok d =>
        rw [hv] at h
        cases h
        intro r2 hr2
        simp only [List.mem_map] at hr2
        obtain ⟨r0, hr0, hrepl⟩ := hr2
        by_cases hri : (r0.id == i) = true
        · rw [if_pos hri] at hrepl
          subst hrepl
          exact validateFull_len x d hv
        · rw [if_neg hri] at hrepl
          subst hrepl
          exact hinv r0 hr0
  · intro i x st r s2 hinv h
    unfold patchCarro at h
    cases hr : retrieveCarro i st with
    | none => rw [hr] at h; cases h; exact hinv
    | some c =>
      rw [hr] at h
      cases hv : validatePatch x with
      | error e => rw [hv] at h; cases h; exact hinv
      | ok d =>
        rw [hv] at h
        cases h
        have hcmem : c ∈ st.rows := List.mem_of_find?_eq_some hr
        have hcinv := hinv c hcmem
        obtain ⟨hdm, hdmo⟩ := validatePatch_len x d hv
        intro r2 hr2
        simp only [List.mem_map] at hr2
        obtain ⟨r0, hr0, hrepl⟩ := hr2
        by_cases hri : (r0.id == i) = true
        · rw [if_pos hri] at hrepl
          subst hrepl
          constructor
          · cases hdm2 : d.marca with
            | none => simp only [hdm2, Option.getD]; exact hcinv.1
            | some v => simp only [hdm2, Option.getD]; exact hdm v hdm2
          · cases hdmo2 : d.modelo with
            | none => simp only [hdmo2, Option.getD]; exact hcinv.2
            | some v => simp only [hdmo2, Option.getD]; exact hdmo v hdmo2
        · rw [if_neg hri] at hrepl
          subst hrepl
          exact hinv r0 hr0
  · intro i st s2 hinv h
    unfold destroyCarro at h
    cases hr : retrieveCarro i st with
    | none => rw [hr] at h; cases h
    | some c =>
      rw [hr] at h
      cases h
      intro r2 hr2
      exact hinv r2 (List.mem_filter.mp hr2).1

theorem marca_modelo_maxlength_witness :
    (∃ l, createCarro exLongMarca emptyStore = (Except.error l, emptyStore) ∧
       ("marca", maxLenMsg 100) ∈ l) ∧ StoreLenInv exStore :=
  ⟨marca_modelo_maxlength.1 exLongMarca emptyStore longText rfl (by decide),
   marca_modelo_maxlength.2.2.1 exInput emptyStore (Except.ok exCarro) exStore
     (fun c hc => absurd hc (List.not_mem_nil c)) (by decide)⟩
